import Mathlib

/-!
Verification of the time-zone resolution core of the `datetime` repository
(`src/zoned.rs`).  The `local`, `parse`, `tz` and `duration` modules that
`zoned.rs` uses are external collaborators that are not part of the sources
being verified; definitions for them below are modelled from the
specification and say so in their doc comments.  Everything else is a direct
shallow embedding of `src/zoned.rs`.
-/

deriving instance DecidableEq for Except

namespace Datetime

/-- Modelled from the spec: a local-time-type record carried by a transition
(`tz::Transition` is not under the verified sources).  Per the data model it
holds a signed 32-bit `offset_seconds`, a short text designation and a DST
flag. -/
structure LocalTimeType where
  offset : Int
  name : String
  is_dst : Bool
deriving DecidableEq

/-- Modelled from the spec: one transition record of a variable-offset zone:
a signed transition `timestamp` (UTC seconds since the epoch, decoded from a
4-byte big-endian field) together with its local-time type. -/
structure Transition where
  timestamp : Int
  local_time_type : LocalTimeType
deriving DecidableEq

/-- The time-zone variant type of `src/zoned.rs` (`enum TimeZone`): UTC,
a fixed offset in seconds, or a variable offset given by a transition
table. -/
inductive TimeZone where
  | UTC : TimeZone
  | FixedOffset (offset : Int) : TimeZone
  | VariableOffset (transitions : List Transition) : TimeZone
deriving DecidableEq

/-- Modelled from the spec: the naive date/time value (`local::LocalDateTime`,
an external collaborator).  The naive value is "denominated in the same
numeric space as the zone's timestamps", so we model it by its count of
seconds since the epoch (what `to_instant().seconds()` returns). -/
structure LocalDateTime where
  seconds : Int
deriving DecidableEq

/-- Modelled from the spec: adding a `Duration` of `n` seconds to a naive
value (`local + Duration::of(n)` in the source) advances it by `n`
seconds. -/
def LocalDateTime.addSeconds (t : LocalDateTime) (n : Int) : LocalDateTime :=
  ⟨t.seconds + n⟩

/-- Modelled from the spec: `to_instant().seconds()`, the epoch-second count
of a naive value. -/
def LocalDateTime.to_instant_seconds (t : LocalDateTime) : Int :=
  t.seconds

/-- Modelled from the spec: the hour-of-day field of a naive value, read off
its epoch-second count (calendar arithmetic is an external collaborator). -/
def LocalDateTime.hour (t : LocalDateTime) : Int :=
  t.seconds % 86400 / 3600

/-- Truncation of a 64-bit integer to a signed 32-bit integer, the meaning of
the Rust cast `as i32` used in `adjust_variable`. -/
def toI32 (n : Int) : Int :=
  (n + 2147483648) % 4294967296 - 2147483648

/-- `TimeZone::adjust_utc`: no adjustment. -/
def TimeZone.adjust_utc (l : LocalDateTime) : LocalDateTime :=
  l

/-- `TimeZone::adjust_fixed`: add the fixed offset, in seconds, to the naive
value. -/
def TimeZone.adjust_fixed (offset : Int) (l : LocalDateTime) : LocalDateTime :=
  l.addSeconds offset

/-- `TimeZone::adjust_variable`: truncate the naive value's epoch seconds to
`i32`, then take the first transition in the stored list whose timestamp is
strictly below that candidate; if none qualifies the value is returned
unchanged. -/
def TimeZone.adjust_variable (transitions : List Transition) (l : LocalDateTime) : LocalDateTime :=
  let unix_timestamp := toI32 l.to_instant_seconds
  match transitions.find? (fun t => decide (t.timestamp < unix_timestamp)) with
  | none => l
  | some t => l.addSeconds t.local_time_type.offset

/-- `TimeZone::adjust`: dispatch on the zone variant. -/
def TimeZone.adjust : TimeZone → LocalDateTime → LocalDateTime
  | .UTC, l => TimeZone.adjust_utc l
  | .FixedOffset offset, l => TimeZone.adjust_fixed offset l
  | .VariableOffset transitions, l => TimeZone.adjust_variable transitions l

/-- The validation error type of `src/zoned.rs` (`enum Error`). -/
inductive Error where
  | OutOfRange : Error
  | SignMismatch : Error
deriving DecidableEq

/-- `RangeExt::is_within` on `lo..hi` (a half-open Rust range), as used by
`of_seconds`. -/
def is_within (n lo hi : Int) : Bool :=
  decide (lo ≤ n) && decide (n < hi)

/-- `TimeZone::of_seconds`: accept a fixed offset iff it is within
`-86400..86401`, otherwise fail with `OutOfRange`. -/
def TimeZone.of_seconds (seconds : Int) : Except Error TimeZone :=
  if is_within seconds (-86400) 86401 then
    .ok (.FixedOffset seconds)
  else
    .error .OutOfRange

/-- `TimeZone::of_hours_and_minutes`: reject opposite nonzero signs, then
hours beyond ±23, then minutes beyond ±59; otherwise delegate to
`of_seconds` on `hours * 24 + minutes * 60` (the multiplier `24` is what the
source writes). -/
def TimeZone.of_hours_and_minutes (hours minutes : Int) : Except Error TimeZone :=
  if (0 < hours ∧ minutes < 0) ∨ (hours < 0 ∧ 0 < minutes) then
    .error .SignMismatch
  else if hours ≤ -24 ∨ 24 ≤ hours then
    .error .OutOfRange
  else if minutes ≤ -60 ∨ 60 ≤ minutes then
    .error .OutOfRange
  else
    TimeZone.of_seconds (hours * 24 + minutes * 60)

/-- Modelled from the spec: the structured output of the external ISO-8601
zone-designator grammar — `Zulu`, or `Offset` with a sign string, an hours
digit-string and an optional minutes digit-string. -/
inductive ZoneFields where
  | Zulu : ZoneFields
  | Offset (sign : String) (hours : String) (minutes : Option String) : ZoneFields
deriving DecidableEq

/-- Modelled from the spec: the error of the external ISO-8601 grammar
(`parse::Error`). -/
inductive GrammarError where
  | InvalidFormat : GrammarError
deriving DecidableEq

/-- Modelled from the spec: Rust's `ParseIntError`, produced when a digit
substring does not convert to the target integer type. -/
inductive ParseIntError where
  | Empty : ParseIntError
  | InvalidDigit : ParseIntError
  | PosOverflow : ParseIntError
deriving DecidableEq

/-- Modelled from the spec: the error of the external calendar/clock
sub-parsers (`local::ParseError`). -/
inductive LocalParseError where
  | InvalidFields : LocalParseError
deriving DecidableEq

/-- The composite parse-error taxonomy of `src/zoned.rs`
(`enum ParseError`): a zone validation error, a calendar/clock sub-parse
error, a numeric conversion error, or a grammar-level error. -/
inductive ParseError where
  | Zone (e : Error) : ParseError
  | Date (e : LocalParseError) : ParseError
  | Number (e : ParseIntError) : ParseError
  | Parse (e : GrammarError) : ParseError
deriving DecidableEq

/-- Numeric value of a list of decimal digit characters. -/
def digitsToNat (cs : List Char) : Nat :=
  cs.foldl (fun a c => a * 10 + (c.toNat - 48)) 0

/-- Modelled from the spec: Rust's `str::parse::<i8>` on the substrings the
grammar hands over — it fails on an empty string, on a non-digit character,
and on overflow past `i8::MAX`. -/
def parseI8 (s : String) : Except ParseIntError Int :=
  if s.data.isEmpty then .error .Empty
  else if s.data.all (fun c => c.isDigit) then
    if digitsToNat s.data ≤ 127 then .ok (digitsToNat s.data)
    else .error .PosOverflow
  else .error .InvalidDigit

/-- The `parse` closure inside `from_fields`: numeric parse with its error
wrapped as `ParseError::Number`. -/
def parseNum (s : String) : Except ParseError Int :=
  (parseI8 s).mapError ParseError.Number

/-- `TimeZone::from_fields`: turn parsed zone fields into a zone.  `none`
models the `unreachable!()` panic arm reached when the sign string is
neither `"+"` nor `"-"`. -/
def TimeZone.from_fields (fields : ZoneFields) : Option (Except ParseError TimeZone) :=
  match fields with
  | .Zulu => some (.ok .UTC)
  | .Offset "+" hours none =>
      some (do
        let h ← parseNum hours
        (TimeZone.of_hours_and_minutes h 0).mapError ParseError.Zone)
  | .Offset "-" hours none =>
      some (do
        let h ← parseNum hours
        (TimeZone.of_hours_and_minutes (-h) 0).mapError ParseError.Zone)
  | .Offset "+" hours (some mins) =>
      some (do
        let h ← parseNum hours
        let m ← parseNum mins
        (TimeZone.of_hours_and_minutes h m).mapError ParseError.Zone)
  | .Offset "-" hours (some mins) =>
      some (do
        let h ← parseNum hours
        let m ← parseNum mins
        (TimeZone.of_hours_and_minutes (-h) (-m)).mapError ParseError.Zone)
  | .Offset _ _ _ => none

/-- Helper for the modelled zone grammar: parse the part after the sign — a
nonempty run of digits for the hours, optionally followed by a colon and a
nonempty run of digits for the minutes, consuming the whole input. -/
def parseOffsetBody (rest : List Char) : Except GrammarError (String × Option String) :=
  let hrs := rest.takeWhile (fun c => c.isDigit)
  let remainder := rest.dropWhile (fun c => c.isDigit)
  if hrs.isEmpty then .error .InvalidFormat
  else
    match remainder with
    | [] => .ok (String.mk hrs, none)
    | ':' :: ms =>
        if ms.isEmpty then .error .InvalidFormat
        else if ms.all (fun c => c.isDigit) then
          .ok (String.mk hrs, some (String.mk ms))
        else .error .InvalidFormat
    | _ => .error .InvalidFormat

/-- Modelled from the spec: the external ISO-8601 zone-designator grammar
(`parse::parse_iso_8601_zone`) — it accepts `Z`, or a `+`/`-` sign followed
by an hours digit-string and an optional `:`-separated minutes digit-string,
and fails on anything else.  The produced sign string is always `"+"` or
`"-"` ("the regex only checks for [Z+-]"). -/
def parse_iso_8601_zone (input : String) : Except GrammarError ZoneFields :=
  match input.data with
  | ['Z'] => .ok .Zulu
  | '+' :: rest => (parseOffsetBody rest).map (fun p => .Offset "+" p.1 p.2)
  | '-' :: rest => (parseOffsetBody rest).map (fun p => .Offset "-" p.1 p.2)
  | _ => .error .InvalidFormat

/-- `FromStr for TimeZone`: run the zone grammar, wrapping grammar errors as
`ParseError::Parse`, then hand the fields to `from_fields`.  `none` models a
panic (which the grammar's output in fact never triggers). -/
def TimeZone.from_str (input : String) : Option (Except ParseError TimeZone) :=
  match parse_iso_8601_zone input with
  | .ok fields => TimeZone.from_fields fields
  | .error e => some (.error (.Parse e))

/-- Modelled from the spec: the structured date fields produced by the
external ISO-8601 grammar for the calendar part of a combined string. -/
structure DateFields where
  year : Int
  month : Int
  day : Int
deriving DecidableEq

/-- Modelled from the spec: the structured time fields produced by the
external ISO-8601 grammar for the clock part of a combined string. -/
structure TimeFields where
  hour : Int
  minute : Int
  second : Int
deriving DecidableEq

/-- Modelled from the spec: a validated calendar date
(`local::LocalDate`). -/
structure LocalDate where
  year : Int
  month : Int
  day : Int
deriving DecidableEq

/-- Modelled from the spec: a validated clock time (`local::LocalTime`). -/
structure LocalTime where
  hour : Int
  minute : Int
  second : Int
deriving DecidableEq

/-- Modelled from the spec: `LocalDate::from_fields` validates the calendar
fields before building a date. -/
def LocalDate.from_fields (df : DateFields) : Except LocalParseError LocalDate :=
  if 1 ≤ df.month ∧ df.month ≤ 12 ∧ 1 ≤ df.day ∧ df.day ≤ 31 then
    .ok ⟨df.year, df.month, df.day⟩
  else .error .InvalidFields

/-- Modelled from the spec: `LocalTime::from_fields` validates the clock
fields before building a time. -/
def LocalTime.from_fields (tf : TimeFields) : Except LocalParseError LocalTime :=
  if 0 ≤ tf.hour ∧ tf.hour ≤ 23 ∧ 0 ≤ tf.minute ∧ tf.minute ≤ 59
      ∧ 0 ≤ tf.second ∧ tf.second ≤ 60 then
    .ok ⟨tf.hour, tf.minute, tf.second⟩
  else .error .InvalidFields

/-- Modelled from the spec: days from the epoch of a proleptic-Gregorian
civil date (the external calendar arithmetic), via the standard
era/year-of-era decomposition. -/
def days_from_civil (y m d : Int) : Int :=
  let yy := if m ≤ 2 then y - 1 else y
  let era := (if 0 ≤ yy then yy else yy - 399) / 400
  let yoe := yy - era * 400
  let mp := (m + 9) % 12
  let doy := (153 * mp + 2) / 5 + d - 1
  let doe := yoe * 365 + yoe / 4 - yoe / 100 + doy
  era * 146097 + doe - 719468

/-- Modelled from the spec: `LocalDateTime::new` pairs a date with a time;
in our epoch-second model that is the date's day count times 86400 plus the
seconds-of-day of the time. -/
def LocalDateTime.new (d : LocalDate) (t : LocalTime) : LocalDateTime :=
  ⟨days_from_civil d.year d.month d.day * 86400
    + t.hour * 3600 + t.minute * 60 + t.second⟩

/-- Modelled from the spec: the external combined grammar
(`parse::parse_iso_8601_date_time_zone`) splits a
`YYYY-MM-DDThh:mm:ss<zone>` string into date, time and zone field
groups. -/
def parse_iso_8601_date_time_zone (input : String) :
    Except GrammarError (DateFields × TimeFields × ZoneFields) :=
  match input.data with
  | y1 :: y2 :: y3 :: y4 :: '-' :: m1 :: m2 :: '-' :: d1 :: d2 :: 'T'
      :: h1 :: h2 :: ':' :: mi1 :: mi2 :: ':' :: s1 :: s2 :: rest =>
    if [y1, y2, y3, y4, m1, m2, d1, d2, h1, h2, mi1, mi2, s1, s2].all
        (fun c => c.isDigit) then
      match parse_iso_8601_zone (String.mk rest) with
      | .ok zf =>
          .ok (⟨digitsToNat [y1, y2, y3, y4], digitsToNat [m1, m2], digitsToNat [d1, d2]⟩,
               ⟨digitsToNat [h1, h2], digitsToNat [mi1, mi2], digitsToNat [s1, s2]⟩,
               zf)
      | .error e => .error e
    else .error .InvalidFormat
  | _ => .error .InvalidFormat

/-- `struct ZonedDateTime`: a naive value paired with a time zone. -/
structure ZonedDateTime where
  loc : LocalDateTime
  time_zone : TimeZone
deriving DecidableEq

/-- `TimeZone::at`: pair this zone with a naive value. -/
def TimeZone.at (tz : TimeZone) (l : LocalDateTime) : ZonedDateTime :=
  ⟨l, tz⟩

/-- `FromStr for ZonedDateTime`: split the input with the combined grammar,
then build the date, the time and the zone in that order, short-circuiting
on the first failure; `none` models the panic arm of `from_fields`. -/
def ZonedDateTime.from_str (input : String) : Option (Except ParseError ZonedDateTime) :=
  match parse_iso_8601_date_time_zone input with
  | .error e => some (.error (.Parse e))
  | .ok (df, tf, zf) =>
    match LocalDate.from_fields df with
    | .error e => some (.error (.Date e))
    | .ok date =>
      match LocalTime.from_fields tf with
      | .error e => some (.error (.Date e))
      | .ok time =>
        match TimeZone.from_fields zf with
        | none => none
        | some (.error e) => some (.error e)
        | some (.ok zone) => some (.ok ⟨LocalDateTime.new date time, zone⟩)

/-- `TimePiece::hour for ZonedDateTime`: adjust the stored naive value by
the stored zone, then read the hour field off the adjusted value. -/
def ZonedDateTime.hour (z : ZonedDateTime) : Int :=
  (z.time_zone.adjust z.loc).hour

/-- Modelled from the spec: the successfully decoded content of a binary
time-zone-database file (`tz::parse`, the Transition Table Loader, is an
external collaborator): an ordered sequence of transition records in file
order.  The binary format places no constraint on the transition timestamps
beyond each fitting in 4 bytes, so any list of records is a possible decode
result. -/
structure TzData where
  transitions : List Transition
deriving DecidableEq

/-- Stable insertion of a transition into a list, placing it before the
first element whose timestamp does not exceed it; the building block of a
stable descending sort. -/
def insertTransitionDesc (tr : Transition) : List Transition → List Transition
  | [] => [tr]
  | u :: us =>
      if u.timestamp ≤ tr.timestamp then tr :: u :: us
      else u :: insertTransitionDesc tr us

/-- The sort step of `TimeZone::zoneinfo`
(`tz.transitions.sort_by(|b, a| a.timestamp.cmp(&b.timestamp))`): a stable
sort into descending timestamp order, modelled by stable insertion sort
(Rust's `sort_by` is stable, so the two agree). -/
def sortTransitionsDesc : List Transition → List Transition
  | [] => []
  | tr :: rest => insertTransitionDesc tr (sortTransitionsDesc rest)

/-- `TimeZone::zoneinfo` after a successful read and decode: sort the
decoded transitions backwards by timestamp and wrap them as a
variable-offset zone. -/
def TimeZone.zoneinfo (tz : TzData) : TimeZone :=
  .VariableOffset (sortTransitionsDesc tz.transitions)

/-! Helper lemmas. -/

/-- On a list sorted non-strictly descending by timestamp, the first element
found with timestamp strictly below `c` has the greatest timestamp among all
elements with timestamp strictly below `c`. -/
theorem find_desc_max (c : Int) :
    ∀ (l : List Transition),
      l.Pairwise (fun a b => b.timestamp ≤ a.timestamp) →
      ∀ tr, l.find? (fun u => decide (u.timestamp < c)) = some tr →
      ∀ u ∈ l, u.timestamp < c → u.timestamp ≤ tr.timestamp := by
  intro l
  induction l with
  | nil =>
    intro _ tr h
    simp at h
  | cons a as ih =>
    intro hs tr h u hu hulc
    rw [List.pairwise_cons] at hs
    by_cases hac : a.timestamp < c
    · simp only [List.find?, decide_eq_true hac] at h
      have hatr : a = tr := by simpa using h
      rcases List.mem_cons.mp hu with rfl | hm
      · exact le_of_eq (congrArg Transition.timestamp hatr)
      · exact le_trans (hs.1 u hm) (le_of_eq (congrArg Transition.timestamp hatr))
    · simp only [List.find?, decide_eq_false hac] at h
      rcases List.mem_cons.mp hu with rfl | hm
      · exact absurd hulc hac
      · exact ih hs.2 tr h u hm hulc

/-- Stable descending insertion preserves the descending-sorted invariant,
and inserts no element other than the given one. -/
theorem pairwise_insertTransitionDesc (tr : Transition) :
    ∀ (l : List Transition),
      l.Pairwise (fun a b => b.timestamp ≤ a.timestamp) →
      (insertTransitionDesc tr l).Pairwise (fun a b => b.timestamp ≤ a.timestamp) ∧
      ∀ x ∈ insertTransitionDesc tr l, x = tr ∨ x ∈ l := by
  intro l
  induction l with
  | nil =>
    intro _
    simp [insertTransitionDesc]
  | cons u us ih =>
    intro hs
    rw [List.pairwise_cons] at hs
    by_cases hle : u.timestamp ≤ tr.timestamp
    · rw [insertTransitionDesc, if_pos hle]
      refine ⟨?_, ?_⟩
      · rw [List.pairwise_cons]
        refine ⟨?_, List.pairwise_cons.mpr hs⟩
        intro x hx
        rcases List.mem_cons.mp hx with rfl | hxm
        · exact hle
        · exact le_trans (hs.1 x hxm) hle
      · intro x hx
        simpa using List.mem_cons.mp hx
    · rw [insertTransitionDesc, if_neg hle]
      obtain ⟨ihp, ihm⟩ := ih hs.2
      refine ⟨?_, ?_⟩
      · rw [List.pairwise_cons]
        refine ⟨?_, ihp⟩
        intro x hx
        rcases ihm x hx with rfl | hxm
        · omega
        · exact hs.1 x hxm
      · intro x hx
        rcases List.mem_cons.mp hx with rfl | hxm
        · exact Or.inr (List.mem_cons_self _ _)
        · rcases ihm x hxm with rfl | h2
          · exact Or.inl rfl
          · exact Or.inr (List.mem_cons_of_mem _ h2)

/-- The modelled `sort_by` step always produces a list sorted non-strictly
descending by timestamp. -/
theorem pairwise_sortTransitionsDesc :
    ∀ (l : List Transition),
      (sortTransitionsDesc l).Pairwise (fun a b => b.timestamp ≤ a.timestamp) := by
  intro l
  induction l with
  | nil => simp [sortTransitionsDesc]
  | cons tr rest ih => exact (pairwise_insertTransitionDesc tr _ ih).1

/-- Any successful output of the modelled zone grammar is `Zulu` or an
`Offset` whose sign string is `"+"` or `"-"`. -/
theorem parse_zone_ok_shape (input : String) (f : ZoneFields)
    (hp : parse_iso_8601_zone input = .ok f) :
    f = .Zulu ∨ (∃ h m, f = .Offset "+" h m) ∨ (∃ h m, f = .Offset "-" h m) := by
  unfold parse_iso_8601_zone at hp
  split at hp
  · exact Or.inl (by simpa using hp.symm)
  · rcases hb : parseOffsetBody _ with e | p
    · rw [hb] at hp
      simp [Except.map] at hp
    · rw [hb] at hp
      simp only [Except.map, Except.ok.injEq] at hp
      exact Or.inr (Or.inl ⟨p.1, p.2, hp.symm⟩)
  · rcases hb : parseOffsetBody _ with e | p
    · rw [hb] at hp
      simp [Except.map] at hp
    · rw [hb] at hp
      simp only [Except.map, Except.ok.injEq] at hp
      exact Or.inr (Or.inr ⟨p.1, p.2, hp.symm⟩)
  · simp at hp

/-- `from_fields` reaches a `some` result (no panic) on every `Offset`
field group whose sign is `"+"` or `"-"`. -/
theorem from_fields_offset_isSome (s : String) (hs : s = "+" ∨ s = "-")
    (h : String) (m : Option String) :
    ∃ r, TimeZone.from_fields (.Offset s h m) = some r := by
  rcases hs with rfl | rfl <;> rcases m with _ | mv <;> exact ⟨_, rfl⟩

/-! Claim theorems. -/

/-- C1: what parsing the four zone designators actually yields.  `"Z"` does
yield UTC, but because `of_hours_and_minutes` composes
`hours * 24 + minutes * 60`, `"+05:30"` yields a fixed offset of 1920
seconds (not the 19800 the claim states), `"-05:30"` yields −1920, and
`"+05"` yields 120 (not 18000). -/
theorem C1_zone_designator_values :
    TimeZone.from_str "Z" = some (.ok .UTC) ∧
    TimeZone.from_str "+05:30" = some (.ok (.FixedOffset 1920)) ∧
    TimeZone.from_str "-05:30" = some (.ok (.FixedOffset (-1920))) ∧
    TimeZone.from_str "+05" = some (.ok (.FixedOffset 120)) ∧
    (1920 : Int) ≠ 19800 := by
  decide

/-- C2: parsing `"2021-06-01T12:00:00+02:00"` resolves the zone to a fixed
offset of 48 seconds (again via `hours * 24 + minutes * 60`), so the hour
accessor of the parsed zoned value returns 12, not the 14 the claim
states. -/
theorem C2_combined_parse_hour :
    ZonedDateTime.from_str "2021-06-01T12:00:00+02:00"
      = some (.ok ⟨⟨1622548800⟩, .FixedOffset 48⟩) ∧
    ZonedDateTime.hour ⟨⟨1622548800⟩, .FixedOffset 48⟩ = 12 ∧
    (12 : Int) ≠ 14 := by
  decide

/-- C3 counterexample: a naive value whose epoch-second count (2^31) lies
outside the signed 32-bit range.  The single-transition table is sorted
descending and its transition timestamp 0 is strictly less than the naive
value's timestamp, so the claim demands an adjustment by 3600 seconds, yet
`adjust` returns the value unchanged (the truncated candidate is −2^31). -/
theorem C3_counterexample :
    TimeZone.adjust (.VariableOffset [⟨0, ⟨3600, "LMT", false⟩⟩]) ⟨2147483648⟩
        = (⟨2147483648⟩ : LocalDateTime) ∧
    ([⟨0, ⟨3600, "LMT", false⟩⟩] : List Transition).Pairwise
        (fun a b => b.timestamp ≤ a.timestamp) ∧
    (0 : Int) < 2147483648 ∧
    (⟨2147483648⟩ : LocalDateTime) ≠ LocalDateTime.addSeconds ⟨2147483648⟩ 3600 := by
  decide

/-- C3 (amended): for a variable-offset zone whose transition list is sorted
descending by timestamp, `adjust` returns the input advanced by the offset
of the transition whose timestamp is the greatest one strictly less than the
candidate timestamp (the input's epoch seconds truncated to signed 32 bits),
and returns the input unchanged when no transition timestamp is strictly
less than the candidate. -/
theorem C3_adjust_variable_greatest (ts : List Transition) (t : LocalDateTime)
    (hs : ts.Pairwise (fun a b => b.timestamp ≤ a.timestamp)) :
    (∃ tr, tr ∈ ts ∧ tr.timestamp < toI32 t.seconds ∧
        (∀ u ∈ ts, u.timestamp < toI32 t.seconds → u.timestamp ≤ tr.timestamp) ∧
        TimeZone.adjust (.VariableOffset ts) t = t.addSeconds tr.local_time_type.offset) ∨
    ((∀ u ∈ ts, ¬ u.timestamp < toI32 t.seconds) ∧
        TimeZone.adjust (.VariableOffset ts) t = t) := by
  rcases hfind : ts.find? (fun u => decide (u.timestamp < toI32 t.seconds)) with _ | tr
  · refine Or.inr ⟨?_, ?_⟩
    · intro u hu
      have := List.find?_eq_none.mp hfind u hu
      simpa using this
    · simp [TimeZone.adjust, TimeZone.adjust_variable, LocalDateTime.to_instant_seconds, hfind]
  · refine Or.inl ⟨tr, List.mem_of_find?_eq_some hfind, ?_, ?_, ?_⟩
    · have := List.find?_some hfind
      simpa using this
    · exact find_desc_max _ ts hs tr hfind
    · simp [TimeZone.adjust, TimeZone.adjust_variable, LocalDateTime.to_instant_seconds, hfind]

/-- Witness for the amended C3 theorem at a concrete sorted table and naive
value: the transition with timestamp 0 (the greatest one below the candidate
50) is selected. -/
theorem C3_adjust_variable_greatest_witness :
    (∃ tr, tr ∈ ([⟨100, ⟨7, "A", false⟩⟩, ⟨0, ⟨3, "B", false⟩⟩] : List Transition) ∧
        tr.timestamp < toI32 (LocalDateTime.seconds ⟨50⟩) ∧
        (∀ u ∈ ([⟨100, ⟨7, "A", false⟩⟩, ⟨0, ⟨3, "B", false⟩⟩] : List Transition),
          u.timestamp < toI32 (LocalDateTime.seconds ⟨50⟩) →
          u.timestamp ≤ tr.timestamp) ∧
        TimeZone.adjust
            (.VariableOffset [⟨100, ⟨7, "A", false⟩⟩, ⟨0, ⟨3, "B", false⟩⟩]) ⟨50⟩
          = LocalDateTime.addSeconds ⟨50⟩ tr.local_time_type.offset) ∨
    ((∀ u ∈ ([⟨100, ⟨7, "A", false⟩⟩, ⟨0, ⟨3, "B", false⟩⟩] : List Transition),
          ¬ u.timestamp < toI32 (LocalDateTime.seconds ⟨50⟩)) ∧
        TimeZone.adjust
            (.VariableOffset [⟨100, ⟨7, "A", false⟩⟩, ⟨0, ⟨3, "B", false⟩⟩]) ⟨50⟩
          = (⟨50⟩ : LocalDateTime)) :=
  C3_adjust_variable_greatest _ _ (by decide)

/-- C4 counterexample: at `h = 24, m = -1` the sign check fires first, so
the call fails with `SignMismatch` even though `|h| ≥ 24`; the claimed
"fails with OutOfRange iff `|h| ≥ 24` or `|m| ≥ 60`" biconditional is
therefore false at this input. -/
theorem C4_counterexample :
    ¬ (TimeZone.of_hours_and_minutes 24 (-1) = .error .OutOfRange ↔
        (24 ≤ |(24 : Int)| ∨ 60 ≤ |(-1 : Int)|)) := by
  decide

/-- C4 (amended): `of_hours_and_minutes` fails with `SignMismatch` iff the
two arguments are nonzero with opposite signs; it fails with `OutOfRange`
iff there is no such sign mismatch and `|h| ≥ 24` or `|m| ≥ 60` (the sign
check takes precedence); `(-4, 30)` fails, `(4, 0)` succeeds and
`(-3, -45)` succeeds. -/
theorem C4_of_hours_and_minutes_spec :
    (∀ h m : Int,
      (TimeZone.of_hours_and_minutes h m = .error .SignMismatch ↔
        ((0 < h ∧ m < 0) ∨ (h < 0 ∧ 0 < m))) ∧
      (TimeZone.of_hours_and_minutes h m = .error .OutOfRange ↔
        (¬((0 < h ∧ m < 0) ∨ (h < 0 ∧ 0 < m)) ∧ (24 ≤ |h| ∨ 60 ≤ |m|)))) ∧
    (∃ e, TimeZone.of_hours_and_minutes (-4) 30 = .error e) ∧
    (∃ z, TimeZone.of_hours_and_minutes 4 0 = .ok z) ∧
    (∃ z, TimeZone.of_hours_and_minutes (-3) (-45) = .ok z) := by
  refine ⟨?_, ⟨.SignMismatch, by decide⟩, ⟨.FixedOffset 96, by decide⟩,
    ⟨.FixedOffset (-2772), by decide⟩⟩
  intro h m
  have habs : (24 ≤ |h| ∨ 60 ≤ |m|) ↔ ((h ≤ -24 ∨ 24 ≤ h) ∨ (m ≤ -60 ∨ 60 ≤ m)) := by
    rw [le_abs, le_abs]
    omega
  rw [TimeZone.of_hours_and_minutes]
  split_ifs with h1 h2 h3
  · constructor
    · simp [h1]
    · simp [h1]
  · constructor
    · simp [h1]
    · simp only [habs]
      simp [h1, h2]
  · constructor
    · simp [h1]
    · simp only [habs]
      simp [h1, h3]
  · have hrange : is_within (h * 24 + m * 60) (-86400) 86401 = true := by
      simp only [is_within, Bool.and_eq_true, decide_eq_true_eq]
      omega
    rw [TimeZone.of_seconds, if_pos hrange]
    constructor
    · simp [h1]
    · simp only [habs]
      simp [h1, h2, h3]

/-- C5: `of_seconds n` succeeds, producing the fixed-offset zone of `n`
seconds, iff `-86400 ≤ n ≤ 86400`; any other integer fails with
`OutOfRange`, in particular `86401` and `-86401`. -/
theorem C5_of_seconds_spec :
    (∀ n : Int,
      (TimeZone.of_seconds n = .ok (.FixedOffset n) ∨
        TimeZone.of_seconds n = .error .OutOfRange) ∧
      (TimeZone.of_seconds n = .ok (.FixedOffset n) ↔ (-86400 ≤ n ∧ n ≤ 86400))) ∧
    TimeZone.of_seconds 86401 = .error .OutOfRange ∧
    TimeZone.of_seconds (-86401) = .error .OutOfRange := by
  refine ⟨?_, by decide, by decide⟩
  intro n
  rw [TimeZone.of_seconds]
  by_cases hc : is_within n (-86400) 86401 = true
  · have hr : -86400 ≤ n ∧ n < 86401 := by
      simpa [is_within, Bool.and_eq_true, decide_eq_true_eq] using hc
    rw [if_pos hc]
    exact ⟨Or.inl rfl, by simp; omega⟩
  · have hr : ¬(-86400 ≤ n ∧ n < 86401) := by
      simpa [is_within, Bool.and_eq_true, decide_eq_true_eq] using hc
    rw [if_neg hc]
    refine ⟨Or.inr rfl, ?_⟩
    constructor
    · intro hcontra
      exact absurd hcontra (by simp)
    · intro hn
      exact absurd (by omega : -86400 ≤ n ∧ n < 86401) hr

/-- C6 counterexample: a well-formed table may hold two transitions with
equal timestamps; after the load-time sort they stay adjacent, so the stored
sequence is not sorted *strictly* descending by timestamp. -/
theorem C6_counterexample :
    TimeZone.zoneinfo ⟨[⟨0, ⟨3600, "A", false⟩⟩, ⟨0, ⟨0, "B", false⟩⟩]⟩
        = .VariableOffset [⟨0, ⟨3600, "A", false⟩⟩, ⟨0, ⟨0, "B", false⟩⟩] ∧
    ¬ ([⟨0, ⟨3600, "A", false⟩⟩, ⟨0, ⟨0, "B", false⟩⟩] : List Transition).Pairwise
        (fun a b => b.timestamp < a.timestamp) := by
  constructor
  · decide
  · decide

/-- C6 (amended): after a successful load from any well-formed table, the
transition sequence stored in the resulting variable-offset zone is sorted
descending by timestamp — non-strictly, since transitions with equal
timestamps are kept (in file order). -/
theorem C6_zoneinfo_sorted (d : TzData) :
    ∃ l, TimeZone.zoneinfo d = TimeZone.VariableOffset l ∧
      l.Pairwise (fun a b => b.timestamp ≤ a.timestamp) :=
  ⟨sortTransitionsDesc d.transitions, rfl, pairwise_sortTransitionsDesc _⟩

/-- C7: parsing a zone from text is total — every input string yields a
returned value (the `unreachable!()` arm of `from_fields` is never hit,
because the grammar only produces `"+"` or `"-"` signs), and every input the
grammar rejects yields a wrapped parse error. -/
theorem C7_from_str_never_panics :
    ∀ input : String,
      (∃ r, TimeZone.from_str input = some r) ∧
      (∀ e, parse_iso_8601_zone input = .error e →
        TimeZone.from_str input = some (.error (.Parse e))) := by
  intro input
  constructor
  · rcases hg : parse_iso_8601_zone input with e | f
    · exact ⟨.error (.Parse e), by simp [TimeZone.from_str, hg]⟩
    · have hsome : ∃ r, TimeZone.from_fields f = some r := by
        rcases parse_zone_ok_shape input f hg with rfl | ⟨h, m, rfl⟩ | ⟨h, m, rfl⟩
        · exact ⟨_, rfl⟩
        · exact from_fields_offset_isSome "+" (Or.inl rfl) h m
        · exact from_fields_offset_isSome "-" (Or.inr rfl) h m
      obtain ⟨r, hr⟩ := hsome
      exact ⟨r, by simp [TimeZone.from_str, hg, hr]⟩
  · intro e he
    simp [TimeZone.from_str, he]

/-- Witness for C7 at the malformed input `"+"` (a sign character without
digits): the grammar rejects it and `from_str` returns the wrapped parse
error. -/
theorem C7_from_str_never_panics_witness :
    TimeZone.from_str "+" = some (.error (.Parse .InvalidFormat)) :=
  (C7_from_str_never_panics "+").2 .InvalidFormat (by decide)

/-- C8: for every naive value and every valid fixed offset, adjusting by the
fixed-offset zone advances the value by exactly that many seconds. -/
theorem C8_adjust_fixed_adds (o : Int) (t : LocalDateTime)
    (_h1 : -86400 ≤ o) (_h2 : o ≤ 86400) :
    TimeZone.adjust (.FixedOffset o) t = t.addSeconds o ∧
    (TimeZone.adjust (.FixedOffset o) t).seconds = t.seconds + o :=
  ⟨rfl, rfl⟩

/-- Witness for C8 at offset 7200 and a concrete naive value. -/
theorem C8_adjust_fixed_adds_witness :
    TimeZone.adjust (.FixedOffset 7200) ⟨100⟩ = LocalDateTime.addSeconds ⟨100⟩ 7200 ∧
    (TimeZone.adjust (.FixedOffset 7200) ⟨100⟩).seconds = (100 : Int) + 7200 :=
  C8_adjust_fixed_adds 7200 ⟨100⟩ (by decide) (by decide)

/-- C9: the variable-offset lookup compares transitions against the naive
value's epoch seconds truncated to signed 32 bits, so any two naive values
congruent modulo 2^32 — in particular one outside the signed 32-bit range
and its wrapped representative — receive exactly the same adjustment. -/
theorem C9_adjust_variable_wraps (ts : List Transition) (t u : LocalDateTime)
    (h : (t.seconds - u.seconds) % 4294967296 = 0) :
    (TimeZone.adjust (.VariableOffset ts) t).seconds - t.seconds =
    (TimeZone.adjust (.VariableOffset ts) u).seconds - u.seconds := by
  have hc : toI32 t.seconds = toI32 u.seconds := by
    simp only [toI32]
    omega
  have hfind : ts.find? (fun tr => decide (tr.timestamp < toI32 t.seconds))
      = ts.find? (fun tr => decide (tr.timestamp < toI32 u.seconds)) := by
    rw [hc]
  simp only [TimeZone.adjust, TimeZone.adjust_variable, LocalDateTime.to_instant_seconds]
  rcases hf : ts.find? (fun tr => decide (tr.timestamp < toI32 u.seconds)) with _ | tr
  · have hft : ts.find? (fun tr => decide (tr.timestamp < toI32 t.seconds)) = none := by
      rw [hfind, hf]
    simp [hf, hft]
  · have hft : ts.find? (fun tr => decide (tr.timestamp < toI32 t.seconds)) = some tr := by
      rw [hfind, hf]
    simp [hf, hft, LocalDateTime.addSeconds]

/-- Witness for C9: the naive value with epoch seconds 2^31 (outside the
signed 32-bit range) is adjusted exactly like its wrapped representative
−2^31, so the transition at timestamp 0 is not applied to either. -/
theorem C9_adjust_variable_wraps_witness :
    ((2147483648 : Int) - (-2147483648)) % 4294967296 = 0 ∧
    ((TimeZone.adjust (.VariableOffset [⟨0, ⟨3600, "UTC", false⟩⟩]) ⟨2147483648⟩).seconds
        - (2147483648 : Int) =
      (TimeZone.adjust (.VariableOffset [⟨0, ⟨3600, "UTC", false⟩⟩]) ⟨-2147483648⟩).seconds
        - (-2147483648 : Int)) :=
  ⟨by decide,
    C9_adjust_variable_wraps [⟨0, ⟨3600, "UTC", false⟩⟩] ⟨2147483648⟩ ⟨-2147483648⟩ (by decide)⟩

/-- C10: whenever the sign and range checks of `of_hours_and_minutes` pass,
the delegated `of_seconds` call on the composed total succeeds, so every
accepted pair yields a fixed-offset zone (with the composed total
`h * 24 + m * 60` that the source computes). -/
theorem C10_accepted_pairs_succeed (h m : Int)
    (hsign : ¬((0 < h ∧ m < 0) ∨ (h < 0 ∧ 0 < m)))
    (hh : |h| ≤ 23) (hm : |m| ≤ 59) :
    TimeZone.of_hours_and_minutes h m = .ok (.FixedOffset (h * 24 + m * 60)) := by
  have hh2 := abs_le.mp hh
  have hm2 := abs_le.mp hm
  rw [TimeZone.of_hours_and_minutes, if_neg hsign, if_neg (by omega), if_neg (by omega),
    TimeZone.of_seconds,
    if_pos (by simp only [is_within, Bool.and_eq_true, decide_eq_true_eq]; omega)]

/-- Witness for C10 at `(5, 30)`: the checks pass and the call yields the
fixed-offset zone of 1920 seconds. -/
theorem C10_accepted_pairs_succeed_witness :
    ¬((0 < (5 : Int) ∧ (30 : Int) < 0) ∨ ((5 : Int) < 0 ∧ 0 < (30 : Int))) ∧
    |(5 : Int)| ≤ 23 ∧ |(30 : Int)| ≤ 59 ∧
    TimeZone.of_hours_and_minutes 5 30 = .ok (.FixedOffset (5 * 24 + 30 * 60)) :=
  ⟨by decide, by decide, by decide,
    C10_accepted_pairs_succeed 5 30 (by decide) (by decide) (by decide)⟩

end Datetime
